import Mathlib

/-!
Verification of the IncidentIQ 4-stage hybrid retrieval pipeline
(`src/core/retrieval.py`), the confidence classifier
(`src/core/pattern_matching.py`, `src/core/pattern_matching_v2.py`) and the
threshold validation (`src/core/config.py`).

Shallow embedding conventions:
- Python `float` scores are modelled as exact rationals `ℚ` (real-number
  semantics of the score arithmetic; IEEE rounding is out of scope).
- Python exceptions are modelled with `Except String`: a stage body with no
  handler propagates the error of a collaborator call, exactly as an
  un-caught Python exception does.
- Wall-clock latency is outside the embedding; every `latency_ms` field is 0.
- Python `list.sort(key=k, reverse=True)` is a stable descending sort,
  modelled by the stable insertion sort `sortByDesc`.
- The Qdrant client is abstracted by the list of scored points its `search`
  call returns (or the exception it raises); the embedding similarity used
  by the ColBERT stage is abstracted by a function
  `f : CandidateIncident → ℚ` of the candidate (the query is fixed per run).
-/

/-- `RetrievalStage` enum of `retrieval.py`. -/
inductive RetrievalStage
  | BM25_FILTER
  | BI_ENCODER
  | COLBERT
  | CROSS_ENCODER
deriving DecidableEq

/-- `RetrievalMetrics` dataclass of `retrieval.py` (timestamp dropped,
latency abstracted to 0 — see the header). -/
structure RetrievalMetrics where
  stage : RetrievalStage
  latency_ms : ℚ
  candidates_in : Nat
  candidates_out : Nat
deriving DecidableEq

/-- `CandidateIncident` dataclass of `retrieval.py`, with its Python field
defaults. -/
structure CandidateIncident where
  incident_id : String
  title : String
  payload : List (String × String)
  bm25_score : ℚ := 0
  bi_encoder_score : ℚ := 0
  colbert_score : ℚ := 0
  cross_encoder_score : ℚ := 0
  final_score : ℚ := 0
  match_reasons : List String := []
deriving DecidableEq

/-- One scored point as returned by the abstracted Qdrant client
(`r.id`, `r.score`, `r.payload`). -/
structure ScoredPoint where
  id : String
  score : ℚ
  payload : List (String × String)
deriving DecidableEq

/-- `MatchConfidence` tier used by both pattern-matching engines. -/
inductive MatchConfidence
  | EXACT
  | PARTIAL
  | NONE
deriving DecidableEq

/-- The three threshold fields of `PatternMatchingSettings` in
`config.py`. -/
structure PatternMatchingSettings where
  exact_match_threshold : ℚ
  partial_match_threshold : ℚ
  min_match_threshold : ℚ
deriving DecidableEq

/-- The default thresholds of `PatternMatchingSettings`
(0.92 / 0.70 / 0.50). -/
def defaultPatternMatchingSettings : PatternMatchingSettings :=
  { exact_match_threshold := 92/100
    partial_match_threshold := 7/10
    min_match_threshold := 1/2 }

/-- The per-field validator `PatternMatchingSettings.validate_thresholds` of
`config.py`: raises unless `0 <= v <= 1`, returns `v` unchanged otherwise. -/
def validate_thresholds (v : ℚ) : Except String ℚ :=
  if 0 ≤ v ∧ v ≤ 1 then Except.ok v
  else Except.error ("Threshold must be between 0 and 1")

/-- Construction of `PatternMatchingSettings`: pydantic runs
`validate_thresholds` on each of the three threshold fields independently
(there is no cross-field validator in `config.py`). -/
def mkPatternMatchingSettings (e p m : ℚ) :
    Except String PatternMatchingSettings :=
  match validate_thresholds e, validate_thresholds p,
      validate_thresholds m with
  | Except.ok e', Except.ok p', Except.ok m' =>
    Except.ok { exact_match_threshold := e'
                partial_match_threshold := p'
                min_match_threshold := m' }
  | Except.error msg, _, _ => Except.error msg
  | _, Except.error msg, _ => Except.error msg
  | _, _, Except.error msg => Except.error msg

/-- `_calculate_confidence` of `PatternMatchingEngine`
(`pattern_matching.py`) and of `EnhancedPatternMatchingEngine`
(`pattern_matching_v2.py`) — the two bodies are identical. -/
def calculate_confidence (s : PatternMatchingSettings)
    (similarity_score : ℚ) : MatchConfidence :=
  if similarity_score ≥ s.exact_match_threshold then MatchConfidence.EXACT
  else if similarity_score ≥ s.partial_match_threshold then
    MatchConfidence.PARTIAL
  else MatchConfidence.NONE

/-- `PipelineResult` dataclass of `retrieval.py`. -/
structure PipelineResult where
  matches' : List CandidateIncident
  metrics : List RetrievalMetrics
  total_latency_ms : ℚ
deriving DecidableEq

/-- `PipelineResult.exact_matches`: filters on the hard-coded constant
`final_score >= 0.92`. -/
def PipelineResult.exact_matches (r : PipelineResult) :
    List CandidateIncident :=
  r.matches'.filter (fun m => decide (92/100 ≤ m.final_score))

/-- `PipelineResult.partial_matches`: filters on the hard-coded constants
`0.70 <= final_score < 0.92`. -/
def PipelineResult.partial_matches (r : PipelineResult) :
    List CandidateIncident :=
  r.matches'.filter
    (fun m => decide (7/10 ≤ m.final_score ∧ m.final_score < 92/100))

/-- Loop body of `HybridRetrievalPipeline._merge_candidates`: walk the
concatenated list, keep a candidate only when its `incident_id` has not been
seen, and record seen ids. -/
def mergeLoop : List CandidateIncident → List String → List CandidateIncident
  | [], _ => []
  | c :: rest, seen =>
    if c.incident_id ∈ seen then mergeLoop rest seen
    else c :: mergeLoop rest (c.incident_id :: seen)

/-- `HybridRetrievalPipeline._merge_candidates`: iterates over
`list1 + list2` and appends a candidate iff its id was not already seen.
The kept candidate is the first occurrence, unchanged — nothing is copied
from later duplicates. -/
def merge_candidates (list1 list2 : List CandidateIncident) :
    List CandidateIncident :=
  mergeLoop (list1 ++ list2) []

/-- `HybridRetrievalPipeline._calculate_final_score`: fixed weighted sum
0.10 / 0.25 / 0.40 / 0.25 over the four stage scores. -/
def calculate_final_score (candidate : CandidateIncident) : ℚ :=
  1/10 * candidate.bm25_score +
  1/4 * candidate.bi_encoder_score +
  2/5 * candidate.colbert_score +
  1/4 * candidate.cross_encoder_score

/-- `HybridRetrievalPipeline._explain_match`: one reason string per stage
score above its fixed strong-signal threshold. -/
def explain_match (candidate : CandidateIncident) : List String :=
  (if candidate.bm25_score > 8/10 then ["Strong keyword match"] else []) ++
  (if candidate.bi_encoder_score > 9/10 then ["High semantic similarity"]
   else []) ++
  (if candidate.colbert_score > 9/10 then ["Token-level precision match"]
   else []) ++
  (if candidate.cross_encoder_score > 9/10 then ["Cross-encoder verified"]
   else [])

/-- Stable insertion step for a descending sort by `key` (a candidate is
placed before the first element with a strictly smaller key; on equal keys
the earlier element stays first, as in Python's stable `sort`). -/
def insertByDesc (key : CandidateIncident → ℚ) (c : CandidateIncident) :
    List CandidateIncident → List CandidateIncident
  | [] => [c]
  | d :: rest =>
    if key c ≥ key d then c :: d :: rest else d :: insertByDesc key c rest

/-- Stable descending sort by `key`, modelling
`list.sort(key=key, reverse=True)`. -/
def sortByDesc (key : CandidateIncident → ℚ) :
    List CandidateIncident → List CandidateIncident
  | [] => []
  | c :: rest => insertByDesc key c (sortByDesc key rest)

/-- `ColBERTStage.score`. Disabled: copies `bi_encoder_score` into
`colbert_score` for every candidate and returns them all. Enabled: scores
the first 50 candidates with the similarity oracle `f`, sorts descending by
`colbert_score`, truncates to `limit`. -/
def ColBERTStage.score (f : CandidateIncident → ℚ) (enabled : Bool)
    (candidates : List CandidateIncident) (limit : Nat) :
    List CandidateIncident × RetrievalMetrics :=
  if enabled = false then
    let cs := candidates.map
      (fun c => { c with colbert_score := c.bi_encoder_score })
    (cs, { stage := RetrievalStage.COLBERT, latency_ms := 0,
           candidates_in := candidates.length,
           candidates_out := cs.length })
  else
    let scored := (candidates.take 50).map
      (fun c => { c with colbert_score := f c })
    let sorted := sortByDesc (fun c => c.colbert_score) scored
    (sorted.take limit,
     { stage := RetrievalStage.COLBERT, latency_ms := 0,
       candidates_in := candidates.length,
       candidates_out := (sorted.take limit).length })

/-- `CrossEncoderStage.rerank`. Disabled (flag off or no model): returns
`candidates[:limit]` unchanged. Enabled: recomputes
`cross_encoder_score` for the top `top_k` slice (placeholder weighted
combination times the positional boost `1 - i*0.01`), sorts that slice
descending and truncates to `limit`. -/
def CrossEncoderStage.rerank (enabled : Bool) (hasModel : Bool)
    (top_k : Nat) (candidates : List CandidateIncident) (limit : Nat) :
    List CandidateIncident × RetrievalMetrics :=
  if enabled = false ∨ hasModel = false then
    let final := candidates.take limit
    (final, { stage := RetrievalStage.CROSS_ENCODER, latency_ms := 0,
              candidates_in := candidates.length,
              candidates_out := final.length })
  else
    let scored := (candidates.take top_k).enum.map
      (fun ic =>
        { ic.2 with cross_encoder_score :=
            (1/10 * ic.2.bm25_score +
             1/4 * ic.2.bi_encoder_score +
             2/5 * ic.2.colbert_score +
             1/4 * ic.2.bi_encoder_score) * (1 - (ic.1 : ℚ) * (1/100)) })
    let reranked := sortByDesc (fun c => c.cross_encoder_score) scored
    (reranked.take limit,
     { stage := RetrievalStage.CROSS_ENCODER, latency_ms := 0,
       candidates_in := candidates.length,
       candidates_out := (reranked.take limit).length })

/-- `BM25FilterStage.search`: awaits the Qdrant call — with no handler, a
raised exception propagates — and otherwise converts each point to a
`CandidateIncident` carrying `bm25_score`. -/
def BM25FilterStage.search (qdrantResult : Except String (List ScoredPoint)) :
    Except String (List CandidateIncident × RetrievalMetrics) := do
  let results ← qdrantResult
  let candidates := results.map (fun r =>
    { incident_id := r.id
      title := (r.payload.lookup "title").getD ""
      payload := r.payload
      bm25_score := r.score : CandidateIncident })
  Except.ok (candidates,
    { stage := RetrievalStage.BM25_FILTER, latency_ms := 0,
      candidates_in := candidates.length,
      candidates_out := candidates.length })

/-- `BiEncoderStage.search`: same shape as the BM25 stage but fills
`bi_encoder_score`; a failing embedding/Qdrant call likewise propagates. -/
def BiEncoderStage.search (qdrantResult : Except String (List ScoredPoint)) :
    Except String (List CandidateIncident × RetrievalMetrics) := do
  let results ← qdrantResult
  let candidates := results.map (fun r =>
    { incident_id := r.id
      title := (r.payload.lookup "title").getD ""
      payload := r.payload
      bi_encoder_score := r.score : CandidateIncident })
  Except.ok (candidates,
    { stage := RetrievalStage.BI_ENCODER, latency_ms := 0,
      candidates_in := candidates.length,
      candidates_out := candidates.length })

/-- The pure part of `HybridRetrievalPipeline.search` after the two
first-tier stages returned: merge, ColBERT stage with limit 20,
cross-encoder stage with `top_k = 20` and the caller's `limit`, then set
`final_score` and `match_reasons` on each surviving candidate, in stage-4
output order. No further sorting or truncation happens here. -/
def pipeline_run (f : CandidateIncident → ℚ)
    (colbertEnabled crossEnabled hasModel : Bool)
    (s1 s2 : List CandidateIncident × RetrievalMetrics) (limit : Nat) :
    PipelineResult :=
  let merged := merge_candidates s1.1 s2.1
  let colbertOut := ColBERTStage.score f colbertEnabled merged 20
  let crossOut :=
    CrossEncoderStage.rerank crossEnabled hasModel 20 colbertOut.1 limit
  let finals := crossOut.1.map (fun c =>
    let c' := { c with final_score := calculate_final_score c }
    { c' with match_reasons := explain_match c' })
  { matches' := finals
    metrics := [s1.2, s2.2, colbertOut.2, crossOut.2]
    total_latency_ms := 0 }

/-- `HybridRetrievalPipeline.search`: the two first-tier stage calls are
awaited in sequence; an exception from either propagates and aborts the
run, otherwise the pure pipeline body runs on their outputs. -/
def HybridRetrievalPipeline.search (f : CandidateIncident → ℚ)
    (colbertEnabled crossEnabled hasModel : Bool)
    (bm25Result biResult : Except String (List ScoredPoint)) (limit : Nat) :
    Except String PipelineResult := do
  let s1 ← BM25FilterStage.search bm25Result
  let s2 ← BiEncoderStage.search biResult
  Except.ok (pipeline_run f colbertEnabled crossEnabled hasModel s1 s2 limit)

/-!
Concrete inputs used by the scenario-based claims.

The scenario of the spec: the keyword stage returned INC-1 with
`keyword_score = 0.6`; the semantic stage returned INC-1 with
`semantic_score = 0.95` and INC-2 with `semantic_score = 0.80`; the
late-interaction oracle scores INC-1 at 0.93 and INC-2 at 0.75; the
ColBERT stage is enabled and the cross-encoder stage is disabled.
-/

/-- Keyword-stage output of the scenario. -/
def scenarioKw : List CandidateIncident :=
  [{ incident_id := "INC-1", title := "", payload := [], bm25_score := 3/5 }]

/-- Semantic-stage output of the scenario. -/
def scenarioSem : List CandidateIncident :=
  [{ incident_id := "INC-1", title := "", payload := [],
     bi_encoder_score := 19/20 },
   { incident_id := "INC-2", title := "", payload := [],
     bi_encoder_score := 4/5 }]

/-- Late-interaction similarity oracle of the scenario. -/
def scenarioF : CandidateIncident → ℚ :=
  fun c => if c.incident_id = "INC-1" then 93/100 else 3/4

/-- Keyword-stage result pair of the scenario. -/
def scenarioS1 : List CandidateIncident × RetrievalMetrics :=
  (scenarioKw,
   { stage := RetrievalStage.BM25_FILTER, latency_ms := 0,
     candidates_in := 1, candidates_out := 1 })

/-- Semantic-stage result pair of the scenario. -/
def scenarioS2 : List CandidateIncident × RetrievalMetrics :=
  (scenarioSem,
   { stage := RetrievalStage.BI_ENCODER, latency_ms := 0,
     candidates_in := 2, candidates_out := 2 })

/-- The pipeline result of the scenario (ColBERT enabled, cross-encoder
disabled, limit 5). -/
def scenarioResult : PipelineResult :=
  pipeline_run scenarioF true false false scenarioS1 scenarioS2 5

/-- A keyword-stage candidate with id "A" (first occurrence: carries the
keyword score and a title/payload of its own). -/
def kwA : CandidateIncident :=
  { incident_id := "A", title := "kw-title", payload := [("k", "v")],
    bm25_score := 3/5 }

/-- A semantic-stage candidate with the same id "A" (later occurrence:
carries the semantic score). -/
def semA : CandidateIncident :=
  { incident_id := "A", title := "sem-title", payload := [],
    bi_encoder_score := 19/20 }

/-- A candidate as it leaves the late-interaction stage: `colbert_score`
set, `cross_encoder_score` still at its 0.0 default. -/
def colbertCand : CandidateIncident :=
  { incident_id := "X", title := "", payload := [],
    bi_encoder_score := 1/2, colbert_score := 93/100 }

/-- A candidate used to instantiate the `PipelineResult` view claims. -/
def viewCand : CandidateIncident :=
  { incident_id := "V", title := "", payload := [], final_score := 95/100 }

/-- A pipeline result used to instantiate the view claims. -/
def viewResult : PipelineResult :=
  { matches' := [viewCand], metrics := [], total_latency_ms := 0 }

/-!
Helper lemmas about the merge loop, shared by the merge claims.
-/

/-- `mergeLoop` only consults the membership of ids in `seen`. -/
theorem mergeLoop_congr (l : List CandidateIncident) :
    ∀ s1 s2 : List String, (∀ x, x ∈ s1 ↔ x ∈ s2) →
      mergeLoop l s1 = mergeLoop l s2 := by
  induction l with
  | nil => intro s1 s2 _; rfl
  | cons c rest ih =>
    intro s1 s2 h
    simp only [mergeLoop]
    by_cases hc : c.incident_id ∈ s1
    · rw [if_pos hc, if_pos ((h _).1 hc)]
      exact ih s1 s2 h
    · rw [if_neg hc, if_neg (fun hh => hc ((h _).2 hh))]
      rw [ih (c.incident_id :: s1) (c.incident_id :: s2)]
      intro x
      simp only [List.mem_cons]
      exact or_congr Iff.rfl (h x)

/-- `mergeLoop` keeps a (not necessarily contiguous) sublist of its input,
each kept candidate unchanged. -/
theorem mergeLoop_sublist (l : List CandidateIncident) :
    ∀ seen : List String, List.Sublist (mergeLoop l seen) l := by
  induction l with
  | nil => intro seen; simp [mergeLoop]
  | cons c rest ih =>
    intro seen
    simp only [mergeLoop]
    by_cases hc : c.incident_id ∈ seen
    · rw [if_pos hc]
      exact List.Sublist.cons c (ih seen)
    · rw [if_neg hc]
      exact List.Sublist.cons₂ c (ih _)

/-- An id occurs in the output of `mergeLoop` iff it occurs in the input
and was not already seen. -/
theorem mem_map_id_mergeLoop (l : List CandidateIncident) :
    ∀ (seen : List String) (x : String),
      (x ∈ (mergeLoop l seen).map (fun c => c.incident_id) ↔
        x ∈ l.map (fun c => c.incident_id) ∧ x ∉ seen) := by
  induction l with
  | nil => intro seen x; simp [mergeLoop]
  | cons c rest ih =>
    intro seen x
    simp only [mergeLoop]
    by_cases hc : c.incident_id ∈ seen
    · rw [if_pos hc, ih]
      simp only [List.map_cons, List.mem_cons]
      constructor
      · rintro ⟨hx, hs⟩; exact ⟨Or.inr hx, hs⟩
      · rintro ⟨hx | hx, hs⟩
        · exact absurd (hx ▸ hc) hs
        · exact ⟨hx, hs⟩
    · rw [if_neg hc]
      simp only [List.map_cons, List.mem_cons, ih]
      by_cases hxc : x = c.incident_id
      · subst hxc
        simp [hc]
      · simp [hxc]

/-- The ids kept by `mergeLoop` are pairwise distinct. -/
theorem nodup_map_id_mergeLoop (l : List CandidateIncident) :
    ∀ seen : List String,
      ((mergeLoop l seen).map (fun c => c.incident_id)).Nodup := by
  induction l with
  | nil => intro seen; simp [mergeLoop]
  | cons c rest ih =>
    intro seen
    simp only [mergeLoop]
    by_cases hc : c.incident_id ∈ seen
    · rw [if_pos hc]; exact ih seen
    · rw [if_neg hc]
      simp only [List.map_cons, List.nodup_cons]
      refine ⟨fun hmem => ?_, ih _⟩
      have := (mem_map_id_mergeLoop rest _ c.incident_id).1 hmem
      exact this.2 (List.mem_cons_self _ _)

/-- Splitting `mergeLoop` over an append: the second part runs with the
first part's ids added to `seen`. -/
theorem mergeLoop_append (l1 l2 : List CandidateIncident) :
    ∀ seen : List String,
      mergeLoop (l1 ++ l2) seen =
        mergeLoop l1 seen ++
          mergeLoop l2 (l1.map (fun c => c.incident_id) ++ seen) := by
  induction l1 with
  | nil => intro seen; simp [mergeLoop]
  | cons c rest ih =>
    intro seen
    simp only [List.cons_append, mergeLoop, List.append_eq]
    by_cases hc : c.incident_id ∈ seen
    · rw [if_pos hc, if_pos hc, ih seen]
      congr 1
      apply mergeLoop_congr
      intro x
      simp only [List.map_cons, List.mem_append, List.mem_cons]
      constructor
      · rintro (hx | hx)
        · exact Or.inl (Or.inr hx)
        · exact Or.inr hx
      · rintro (⟨hx | hx⟩ | hx)
        · exact Or.inr (hx ▸ hc)
        · exact Or.inl hx
        · exact Or.inr hx
    · rw [if_neg hc, if_neg hc, ih (c.incident_id :: seen)]
      simp only [List.cons_append]
      congr 2
      apply mergeLoop_congr
      intro x
      simp only [List.map_cons, List.mem_append, List.mem_cons]
      tauto

/-- If every input id was already seen, `mergeLoop` keeps nothing. -/
theorem mergeLoop_eq_nil (l : List CandidateIncident) (seen : List String)
    (h : ∀ c ∈ l, c.incident_id ∈ seen) : mergeLoop l seen = [] := by
  induction l with
  | nil => rfl
  | cons c rest ih =>
    simp only [mergeLoop]
    rw [if_pos (h c (List.mem_cons_self _ _))]
    exact ih (fun d hd => h d (List.mem_cons_of_mem _ hd))

/-- On an id-nodup list disjoint from `seen`, `mergeLoop` keeps
everything. -/
theorem mergeLoop_self (l : List CandidateIncident) :
    ∀ seen : List String, (l.map (fun c => c.incident_id)).Nodup →
      (∀ c ∈ l, c.incident_id ∉ seen) → mergeLoop l seen = l := by
  induction l with
  | nil => intro seen _ _; rfl
  | cons c rest ih =>
    intro seen hnd hdis
    simp only [mergeLoop]
    rw [if_neg (hdis c (List.mem_cons_self _ _))]
    congr 1
    simp only [List.map_cons, List.nodup_cons] at hnd
    refine ih _ hnd.2 (fun d hd => ?_)
    simp only [List.mem_cons]
    rintro (h1 | h2)
    · exact hnd.1 (h1 ▸ List.mem_map_of_mem (fun c => c.incident_id) hd)
    · exact hdis d (List.mem_cons_of_mem _ hd) h2

/-- A kept candidate's id was not in `seen`. -/
theorem notseen_of_mem_mergeLoop (l : List CandidateIncident) :
    ∀ (seen : List String) (c : CandidateIncident), c ∈ mergeLoop l seen →
      c.incident_id ∉ seen := by
  intro seen c hc
  have hm : c.incident_id ∈ (mergeLoop l seen).map (fun c => c.incident_id) :=
    List.mem_map_of_mem _ hc
  exact ((mem_map_id_mergeLoop l seen c.incident_id).1 hm).2

/-- Every kept candidate is the first occurrence of its id in the input. -/
theorem mergeLoop_find (l : List CandidateIncident) :
    ∀ (seen : List String) (c : CandidateIncident), c ∈ mergeLoop l seen →
      l.find? (fun d => d.incident_id == c.incident_id) = some c := by
  induction l with
  | nil => intro seen c hc; simp [mergeLoop] at hc
  | cons c0 rest ih =>
    intro seen c hc
    simp only [mergeLoop] at hc
    by_cases hc0 : c0.incident_id ∈ seen
    · rw [if_pos hc0] at hc
      have hne : c0.incident_id ≠ c.incident_id := by
        intro he
        exact notseen_of_mem_mergeLoop rest seen c hc (he ▸ hc0)
      rw [List.find?_cons_of_neg _ (by simp [hne])]
      exact ih seen c hc
    · rw [if_neg hc0] at hc
      rcases List.mem_cons.1 hc with he | hmem
      · subst he
        rw [List.find?_cons_of_pos _ (by simp)]
      · have hne : c0.incident_id ≠ c.incident_id := by
          intro he
          exact notseen_of_mem_mergeLoop rest _ c hmem
            (he ▸ List.mem_cons_self _ _)
        rw [List.find?_cons_of_neg _ (by simp [hne])]
        exact ih _ c hmem

/-- The re-ranking stage returns at most `limit` candidates on either
path. -/
theorem rerank_fst_length_le (enabled hasModel : Bool) (top_k : Nat)
    (candidates : List CandidateIncident) (limit : Nat) :
    (CrossEncoderStage.rerank enabled hasModel top_k candidates limit).1.length
      ≤ limit := by
  unfold CrossEncoderStage.rerank
  split_ifs <;> simp [List.length_take]

/-- Claim C1, counterexample. In the spec's scenario (rerank disabled,
late-interaction enabled, keyword INC-1 at 0.6, semantic INC-1 at 0.95 and
INC-2 at 0.80, late-interaction 0.93 / 0.75) the code computes
final_score(INC-1) = 0.432 — not the claimed 0.8995 — and both results
classify as NONE, not EXACT/NONE. -/
theorem C1_scenario_counterexample :
    scenarioResult.matches'.map (fun c => c.final_score) = [54/125, 1/2] ∧
    ((54 : ℚ)/125 ≠ 1799/2000) ∧
    scenarioResult.matches'.map
        (fun c => calculate_confidence defaultPatternMatchingSettings
          c.final_score)
      = [MatchConfidence.NONE, MatchConfidence.NONE] ∧
    MatchConfidence.NONE ≠ MatchConfidence.EXACT := by
  refine ⟨?_, by norm_num, ?_, by simp⟩ <;>
    simp [scenarioResult, pipeline_run, scenarioS1, scenarioS2, scenarioKw,
      scenarioSem, scenarioF, merge_candidates, mergeLoop,
      ColBERTStage.score, CrossEncoderStage.rerank, sortByDesc, insertByDesc,
      calculate_final_score, explain_match, calculate_confidence,
      defaultPatternMatchingSettings, List.take] <;>
    norm_num

/-- Claim C1, amended. In the spec's scenario the merge keeps only the
first occurrence of INC-1, so its semantic score 0.95 is discarded, and the
disabled rerank stage leaves every `rerank_score` at 0.0. Hence
final_score(INC-1) = 0.10·0.6 + 0.40·0.93 = 0.432 and
final_score(INC-2) = 0.25·0.80 + 0.40·0.75 = 0.5, both classified NONE
under the default thresholds, returned in order [INC-1, INC-2]. -/
theorem C1_scenario_amended :
    scenarioResult.matches'.map (fun c => c.incident_id)
      = ["INC-1", "INC-2"] ∧
    scenarioResult.matches'.map (fun c => c.bi_encoder_score) = [0, 4/5] ∧
    scenarioResult.matches'.map (fun c => c.cross_encoder_score) = [0, 0] ∧
    scenarioResult.matches'.map (fun c => c.final_score)
      = [1/10 * (3/5) + 2/5 * (93/100), 1/4 * (4/5) + 2/5 * (3/4)] ∧
    scenarioResult.matches'.map
        (fun c => calculate_confidence defaultPatternMatchingSettings
          c.final_score)
      = [MatchConfidence.NONE, MatchConfidence.NONE] := by
  refine ⟨?_, ?_, ?_, ?_, ?_⟩ <;>
    simp [scenarioResult, pipeline_run, scenarioS1, scenarioS2, scenarioKw,
      scenarioSem, scenarioF, merge_candidates, mergeLoop,
      ColBERTStage.score, CrossEncoderStage.rerank, sortByDesc, insertByDesc,
      calculate_final_score, explain_match, calculate_confidence,
      defaultPatternMatchingSettings, List.take] <;>
    norm_num

/-- Claim C2, counterexample. Merging a keyword candidate and a semantic
candidate with the same id "A" keeps the keyword candidate unchanged: the
merged candidate's `semantic_score` is 0, not the 0.95 carried by the
semantic-stage duplicate, so scores are not combined. -/
theorem C2_merge_counterexample :
    merge_candidates [kwA] [semA] = [kwA] ∧
    (merge_candidates [kwA] [semA]).map (fun c => c.bi_encoder_score)
      = [0] ∧
    semA.bi_encoder_score = 19/20 ∧
    ((0 : ℚ) ≠ 19/20) := by
  refine ⟨?_, ?_, rfl, by norm_num⟩ <;>
    simp [merge_candidates, mergeLoop, kwA, semA]

/-- Claim C2, amended. The merge walks keyword-stage candidates first, then
semantic-stage candidates, and keeps exactly the first occurrence of each
`incident_id`, unchanged — later duplicates are dropped entirely, scores
included. The merged list is a sublist of the concatenation (first-seen
positions, each stage's internal order preserved), its ids are pairwise
distinct, every input id survives, and each kept candidate equals the first
occurrence of its id in the concatenated input. -/
theorem C2_merge_amended (l1 l2 : List CandidateIncident) :
    List.Sublist (merge_candidates l1 l2) (l1 ++ l2) ∧
    ((merge_candidates l1 l2).map (fun c => c.incident_id)).Nodup ∧
    (∀ c ∈ l1 ++ l2,
      c.incident_id ∈ (merge_candidates l1 l2).map
        (fun c => c.incident_id)) ∧
    (∀ c ∈ merge_candidates l1 l2,
      (l1 ++ l2).find? (fun d => d.incident_id == c.incident_id)
        = some c) := by
  refine ⟨mergeLoop_sublist _ _, nodup_map_id_mergeLoop _ _, ?_, ?_⟩
  · intro c hc
    exact (mem_map_id_mergeLoop _ _ _).2
      ⟨List.mem_map_of_mem _ hc, by simp⟩
  · intro c hc
    exact mergeLoop_find _ _ c hc

/-- Claim C2, witness for the amended theorem at a concrete input. -/
theorem C2_merge_amended_witness :
    kwA.incident_id ∈ (merge_candidates [kwA] [semA]).map
      (fun c => c.incident_id) :=
  (C2_merge_amended [kwA] [semA]).2.2.1 kwA
    (List.mem_append_left _ (List.mem_cons_self _ _))

/-- Claim C3, counterexample. With the re-ranking stage disabled, a
candidate whose late-interaction score is 0.93 is returned with
`rerank_score` 0.0 (its untouched default), not 0.93: the disabled stage
does not copy the late-interaction score. -/
theorem C3_rerank_counterexample :
    (CrossEncoderStage.rerank false true 20 [colbertCand] 5).1.map
        (fun c => c.cross_encoder_score) = [0] ∧
    (CrossEncoderStage.rerank false true 20 [colbertCand] 5).1.map
        (fun c => c.colbert_score) = [93/100] ∧
    ((0 : ℚ) ≠ 93/100) := by
  refine ⟨?_, ?_, by norm_num⟩ <;>
    simp [CrossEncoderStage.rerank, colbertCand, List.take]

/-- Claim C3, amended. When the re-ranking stage is disabled it is a pure
pass-through plus truncation: it returns exactly the top `limit` input
candidates unchanged and in input order — in particular each returned
candidate's `rerank_score` keeps whatever value it already had (0.0 if
never set), rather than being set to the late-interaction score. -/
theorem C3_rerank_amended (hasModel : Bool) (top_k : Nat)
    (candidates : List CandidateIncident) (limit : Nat) :
    (CrossEncoderStage.rerank false hasModel top_k candidates limit).1
      = candidates.take limit ∧
    (CrossEncoderStage.rerank false hasModel top_k candidates limit).1.map
        (fun c => c.cross_encoder_score)
      = (candidates.map (fun c => c.cross_encoder_score)).take limit ∧
    (CrossEncoderStage.rerank false hasModel top_k candidates
        limit).2.candidates_out
      = (candidates.take limit).length := by
  refine ⟨?_, ?_, ?_⟩ <;> simp [CrossEncoderStage.rerank, List.map_take]

/-- Claim C4, counterexample. A completed run (the spec's own scenario)
returns matches in the order [0.432, 0.5] — not descending by
`final_score`: the orchestrator performs no final sort. -/
theorem C4_order_counterexample :
    scenarioResult.matches'.map (fun c => c.final_score) = [54/125, 1/2] ∧
    ¬ ((1 : ℚ)/2 ≤ 54/125) := by
  constructor
  · simp [scenarioResult, pipeline_run, scenarioS1, scenarioS2, scenarioKw,
      scenarioSem, scenarioF, merge_candidates, mergeLoop,
      ColBERTStage.score, CrossEncoderStage.rerank, sortByDesc, insertByDesc,
      calculate_final_score, explain_match, List.take]
    norm_num
  · norm_num

/-- Claim C4, amended. The orchestrator's final step neither sorts nor
truncates: the returned matches are exactly the re-ranking stage's output
(which already truncated to the caller's limit), in that stage's order,
with each candidate's `final_score` filled in afterwards as the fixed
weighted sum of its stage scores; the matches need not be descending by
`final_score`. -/
theorem C4_order_amended (f : CandidateIncident → ℚ)
    (ce cre hm : Bool) (s1 s2 : List CandidateIncident × RetrievalMetrics)
    (limit : Nat) :
    (pipeline_run f ce cre hm s1 s2 limit).matches'.length ≤ limit ∧
    (pipeline_run f ce cre hm s1 s2 limit).matches'.map
        (fun c => c.incident_id)
      = (CrossEncoderStage.rerank cre hm 20
          (ColBERTStage.score f ce (merge_candidates s1.1 s2.1) 20).1
          limit).1.map (fun c => c.incident_id) ∧
    (pipeline_run f ce cre hm s1 s2 limit).matches'.map
        (fun c => c.final_score)
      = (CrossEncoderStage.rerank cre hm 20
          (ColBERTStage.score f ce (merge_candidates s1.1 s2.1) 20).1
          limit).1.map calculate_final_score := by
  refine ⟨?_, ?_, ?_⟩
  · simp only [pipeline_run, List.length_map]
    exact rerank_fst_length_le cre hm 20 _ limit
  · simp [pipeline_run, List.map_map]
  · simp [pipeline_run, List.map_map]

/-- Claim C5. Assuming `partial_threshold ≤ exact_threshold`, the
confidence classifier is a total pure function sending every score in
[0,1] to exactly one of {EXACT, PARTIAL, NONE}: the tiers are
characterized by `exact_threshold ≤ s`, `partial_threshold ≤ s < exact`
and `s < partial_threshold`, which partition [0,1] with no gaps or
overlaps. -/
theorem C5_classify_partition (s : PatternMatchingSettings) (x : ℚ)
    (hpe : s.partial_match_threshold ≤ s.exact_match_threshold)
    (_h0 : 0 ≤ x) (_h1 : x ≤ 1) :
    (calculate_confidence s x = MatchConfidence.EXACT ↔
        s.exact_match_threshold ≤ x) ∧
    (calculate_confidence s x = MatchConfidence.PARTIAL ↔
        s.partial_match_threshold ≤ x ∧ x < s.exact_match_threshold) ∧
    (calculate_confidence s x = MatchConfidence.NONE ↔
        x < s.partial_match_threshold) := by
  unfold calculate_confidence
  split_ifs with he hp
  · refine ⟨⟨fun _ => he, fun _ => rfl⟩, ?_, ?_⟩
    · constructor
      · intro h; simp at h
      · rintro ⟨_, hlt⟩; exact absurd he (not_le.2 hlt)
    · constructor
      · intro h; simp at h
      · intro hlt
        exact absurd he (not_le.2 (lt_of_lt_of_le hlt hpe))
  · refine ⟨?_, ⟨fun _ => ⟨hp, not_le.1 he⟩, fun _ => rfl⟩, ?_⟩
    · constructor
      · intro h; simp at h
      · intro hle; exact absurd hle he
    · constructor
      · intro h; simp at h
      · intro hlt; exact absurd hp (not_le.2 hlt)
  · refine ⟨?_, ?_, ⟨fun _ => not_le.1 hp, fun _ => rfl⟩⟩
    · constructor
      · intro h; simp at h
      · intro hle; exact absurd hle he
    · constructor
      · intro h; simp at h
      · rintro ⟨hple, _⟩; exact absurd hple hp

/-- Claim C5, witness at the default thresholds and score 0.8. -/
theorem C5_classify_partition_witness :
    calculate_confidence defaultPatternMatchingSettings (4/5)
        = MatchConfidence.PARTIAL ↔
      defaultPatternMatchingSettings.partial_match_threshold ≤ 4/5 ∧
        (4/5 : ℚ) < defaultPatternMatchingSettings.exact_match_threshold :=
  (C5_classify_partition defaultPatternMatchingSettings (4/5)
    (by norm_num [defaultPatternMatchingSettings]) (by norm_num)
    (by norm_num)).2.1

/-- Claim C6, counterexample. The configuration with
`exact_match_threshold = 0.5` and `partial_match_threshold = 0.9` violates
the claimed ordering `partial ≤ exact`, yet settings construction accepts
it: the validator only checks each threshold against [0,1] and performs no
cross-field comparison. -/
theorem C6_validation_counterexample :
    mkPatternMatchingSettings (1/2) (9/10) (1/2)
      = Except.ok { exact_match_threshold := 1/2,
                    partial_match_threshold := 9/10,
                    min_match_threshold := 1/2 } ∧
    ¬ ((9 : ℚ)/10 ≤ 1/2) := by
  constructor
  · unfold mkPatternMatchingSettings validate_thresholds
    rw [if_pos (show (0:ℚ) ≤ 1/2 ∧ (1:ℚ)/2 ≤ 1 by norm_num),
        if_pos (show (0:ℚ) ≤ 9/10 ∧ (9:ℚ)/10 ≤ 1 by norm_num)]
  · norm_num

/-- Claim C6, amended. Settings construction succeeds exactly when each of
the three thresholds lies in [0,1]; the ordering
`partial_match_threshold ≤ exact_match_threshold` is not validated, so an
ordering violation is accepted at construction time. -/
theorem C6_validation_amended (e p m : ℚ) :
    ((0 ≤ e ∧ e ≤ 1) ∧ (0 ≤ p ∧ p ≤ 1) ∧ (0 ≤ m ∧ m ≤ 1) →
      mkPatternMatchingSettings e p m
        = Except.ok { exact_match_threshold := e,
                      partial_match_threshold := p,
                      min_match_threshold := m }) ∧
    (¬ ((0 ≤ e ∧ e ≤ 1) ∧ (0 ≤ p ∧ p ≤ 1) ∧ (0 ≤ m ∧ m ≤ 1)) →
      mkPatternMatchingSettings e p m
        = Except.error ("Threshold must be between 0 and 1")) := by
  constructor
  · rintro ⟨hE, hP, hM⟩
    unfold mkPatternMatchingSettings validate_thresholds
    rw [if_pos hE, if_pos hP, if_pos hM]
  · intro h
    unfold mkPatternMatchingSettings validate_thresholds
    by_cases hE : 0 ≤ e ∧ e ≤ 1
    · rw [if_pos hE]
      by_cases hP : 0 ≤ p ∧ p ≤ 1
      · rw [if_pos hP]
        by_cases hM : 0 ≤ m ∧ m ≤ 1
        · exact absurd ⟨hE, hP, hM⟩ h
        · rw [if_neg hM]
      · rw [if_neg hP]
        by_cases hM : 0 ≤ m ∧ m ≤ 1
        · rw [if_pos hM]
        · rw [if_neg hM]
    · rw [if_neg hE]
      by_cases hP : 0 ≤ p ∧ p ≤ 1
      · rw [if_pos hP]
        by_cases hM : 0 ≤ m ∧ m ≤ 1
        · rw [if_pos hM]
        · rw [if_neg hM]
      · rw [if_neg hP]
        by_cases hM : 0 ≤ m ∧ m ≤ 1
        · rw [if_pos hM]
        · rw [if_neg hM]

/-- Claim C6, witness for the amended theorem: the default thresholds are
accepted. -/
theorem C6_validation_amended_witness :
    mkPatternMatchingSettings (92/100) (7/10) (1/2)
      = Except.ok { exact_match_threshold := 92/100,
                    partial_match_threshold := 7/10,
                    min_match_threshold := 1/2 } :=
  (C6_validation_amended (92/100) (7/10) (1/2)).1
    ⟨⟨by norm_num, by norm_num⟩, ⟨by norm_num, by norm_num⟩,
     ⟨by norm_num, by norm_num⟩⟩

/-- Claim C7, counterexample. A keyword-stage index failure is not turned
into an empty result: `BM25FilterStage.search` has no handler, so the
error propagates out of the stage, and the pipeline run aborts with that
error instead of proceeding to the remaining stages. -/
theorem C7_bm25_failure_counterexample :
    BM25FilterStage.search (Except.error ("lexical index unreachable"))
      = Except.error ("lexical index unreachable") ∧
    HybridRetrievalPipeline.search (fun _ => 0) true false false
        (Except.error ("lexical index unreachable"))
        (Except.ok [{ id := "INC-9", score := 1/2, payload := [] }]) 5
      = Except.error ("lexical index unreachable") := by
  exact ⟨rfl, rfl⟩

/-- Claim C7, amended. For every query, if the keyword stage's index call
fails, the stage propagates the failure (it returns no empty list and no
metrics record), and the pipeline run aborts with the same error rather
than proceeding to the remaining stages. -/
theorem C7_bm25_failure_amended (msg : String)
    (f : CandidateIncident → ℚ) (ce cre hm : Bool)
    (biResult : Except String (List ScoredPoint)) (limit : Nat) :
    BM25FilterStage.search (Except.error msg) = Except.error msg ∧
    HybridRetrievalPipeline.search f ce cre hm (Except.error msg) biResult
        limit
      = Except.error msg := by
  exact ⟨rfl, rfl⟩

/-- Claim C8. The combined final score is the fixed weighted sum
0.10·keyword + 0.25·semantic + 0.40·late_interaction + 0.25·rerank, the
weights sum to 1.0, and the sum is monotone in each of the four stage
scores separately. -/
theorem C8_final_score_monotone (c : CandidateIncident) (q r : ℚ)
    (h : q ≤ r) :
    calculate_final_score c =
      1/10 * c.bm25_score + 1/4 * c.bi_encoder_score +
        2/5 * c.colbert_score + 1/4 * c.cross_encoder_score ∧
    ((1 : ℚ)/10 + 1/4 + 2/5 + 1/4) = 1 ∧
    calculate_final_score { c with bm25_score := q }
      ≤ calculate_final_score { c with bm25_score := r } ∧
    calculate_final_score { c with bi_encoder_score := q }
      ≤ calculate_final_score { c with bi_encoder_score := r } ∧
    calculate_final_score { c with colbert_score := q }
      ≤ calculate_final_score { c with colbert_score := r } ∧
    calculate_final_score { c with cross_encoder_score := q }
      ≤ calculate_final_score { c with cross_encoder_score := r } := by
  refine ⟨rfl, by norm_num, ?_, ?_, ?_, ?_⟩ <;>
    simp only [calculate_final_score] <;> linarith

/-- Claim C8, witness at a concrete candidate and scores 0 ≤ 1. -/
theorem C8_final_score_monotone_witness :
    calculate_final_score
        { incident_id := "W", title := "", payload := [],
          bm25_score := (0 : ℚ) }
      ≤ calculate_final_score
        { incident_id := "W", title := "", payload := [],
          bm25_score := (1 : ℚ) } :=
  (C8_final_score_monotone
    { incident_id := "W", title := "", payload := [] } 0 1
    (by norm_num)).2.2.1

/-- Claim C9. Candidate merging is idempotent on `incident_id`: every
merged list carries each id at most once, merging the result of
`merge A A` with `A` again changes nothing, and `merge A A` already equals
the deduplication of `A` alone. -/
theorem C9_merge_idempotent (l1 l2 A : List CandidateIncident) :
    ((merge_candidates l1 l2).map (fun c => c.incident_id)).Nodup ∧
    merge_candidates (merge_candidates A A) A = merge_candidates A A ∧
    merge_candidates A A = merge_candidates A [] := by
  have hAA : merge_candidates A A = mergeLoop A [] := by
    unfold merge_candidates
    rw [mergeLoop_append]
    rw [mergeLoop_eq_nil A (A.map (fun c => c.incident_id) ++ [])
      (fun c hc => List.mem_append_left _ (List.mem_map_of_mem _ hc))]
    exact List.append_nil _
  refine ⟨nodup_map_id_mergeLoop _ _, ?_, ?_⟩
  · rw [hAA]
    unfold merge_candidates
    rw [mergeLoop_append]
    rw [mergeLoop_self (mergeLoop A []) [] (nodup_map_id_mergeLoop _ _)
      (fun c _ => List.not_mem_nil _)]
    rw [mergeLoop_eq_nil A ((mergeLoop A []).map (fun c => c.incident_id) ++ [])
      (fun c hc => List.mem_append_left _
        ((mem_map_id_mergeLoop A [] c.incident_id).2
          ⟨List.mem_map_of_mem _ hc, by simp⟩))]
    exact List.append_nil _
  · rw [hAA]
    unfold merge_candidates
    rw [List.append_nil]

/-- Claim C10. The derived views of `PipelineResult` use the hard-coded
constants 0.92 and 0.70, independent of the configured thresholds: a match
is in `exact_matches` iff `final_score ≥ 0.92` and in `partial_matches`
iff `0.70 ≤ final_score < 0.92`; the two views are disjoint; and there is
a valid threshold configuration together with a score at least 0.92 that
the classifier does not rate EXACT, so the views can disagree with the
configured tiers. -/
theorem C10_views (r : PipelineResult) (m : CandidateIncident) :
    (m ∈ r.exact_matches ↔ m ∈ r.matches' ∧ 92/100 ≤ m.final_score) ∧
    (m ∈ r.partial_matches ↔
      m ∈ r.matches' ∧ 7/10 ≤ m.final_score ∧ m.final_score < 92/100) ∧
    ¬ (m ∈ r.exact_matches ∧ m ∈ r.partial_matches) ∧
    (∃ s : PatternMatchingSettings,
      0 ≤ s.partial_match_threshold ∧
      s.partial_match_threshold ≤ s.exact_match_threshold ∧
      s.exact_match_threshold ≤ 1 ∧
      ∃ x : ℚ, 92/100 ≤ x ∧
        calculate_confidence s x ≠ MatchConfidence.EXACT) := by
  have hex : m ∈ r.exact_matches ↔ m ∈ r.matches' ∧ 92/100 ≤ m.final_score := by
    simp [PipelineResult.exact_matches, List.mem_filter]
  have hpa : m ∈ r.partial_matches ↔
      m ∈ r.matches' ∧ 7/10 ≤ m.final_score ∧ m.final_score < 92/100 := by
    simp [PipelineResult.partial_matches, List.mem_filter]
  refine ⟨hex, hpa, ?_, ?_⟩
  · rintro ⟨h1, h2⟩
    have e1 := (hex.1 h1).2
    have e2 := (hpa.1 h2).2.2
    linarith
  · refine ⟨{ exact_match_threshold := 19/20,
              partial_match_threshold := 1/2,
              min_match_threshold := 0 },
      by norm_num, by norm_num, by norm_num, 93/100, by norm_num, ?_⟩
    norm_num [calculate_confidence]
    decide

/-- Claim C10, witness for the view characterization at a concrete result
and candidate. -/
theorem C10_views_witness :
    viewCand ∈ viewResult.exact_matches ↔
      viewCand ∈ viewResult.matches' ∧ 92/100 ≤ viewCand.final_score :=
  (C10_views viewResult viewCand).1
